import Mathlib

/-!
Verification development for the courtbot SMS dialogue controller.

The embedding models the body of the Express `POST /sms` route handler
(together with its helper `handleReminderResponse`, the queue lookup
`questionAskedMiddleware` logic that the handler repeats inline, and the
`cleanupName` normalizer), as a pure function from the inbound request,
the per-sender session, and the database contents to the resulting
session, the outbound send attempts, and the database writes.
Database callbacks are inlined sequentially at their call sites.
-/

namespace Courtbot

/-! ## Character-level model of the JavaScript string primitives -/

/-- Model of JavaScript whitespace (the characters relevant to this code:
space, tab, line feed, carriage return), used by both `trim()` and the
regex classes involved here. -/
def isJsSpace (c : Char) : Bool :=
  decide (c.toNat = 32 ∨ c.toNat = 9 ∨ c.toNat = 10 ∨ c.toNat = 13)

/-- Model of the regex class `\w`: ASCII letters, digits and underscore. -/
def isWordChar (c : Char) : Bool :=
  decide ((65 ≤ c.toNat ∧ c.toNat ≤ 90) ∨ (97 ≤ c.toNat ∧ c.toNat ≤ 122) ∨
    (48 ≤ c.toNat ∧ c.toNat ≤ 57) ∨ c.toNat = 95)

/-- Model of JavaScript `toUpperCase` on a single character (ASCII range,
which is all this code ever feeds it in the modelled paths). -/
def jsToUpper (c : Char) : Char :=
  if 97 ≤ c.toNat ∧ c.toNat ≤ 122 then Char.ofNat (c.toNat - 32) else c

/-- Model of JavaScript `toLowerCase` on a single character (ASCII range). -/
def jsToLower (c : Char) : Char :=
  if 65 ≤ c.toNat ∧ c.toNat ≤ 90 then Char.ofNat (c.toNat + 32) else c

theorem toNat_charOfNat_of_lt {n : Nat} (h : n < 55296) : (Char.ofNat n).toNat = n := by
  unfold Char.ofNat
  rw [dif_pos (Or.inl h)]
  rfl

theorem toNat_jsToUpper (c : Char) :
    (jsToUpper c).toNat = if 97 ≤ c.toNat ∧ c.toNat ≤ 122 then c.toNat - 32 else c.toNat := by
  unfold jsToUpper
  by_cases h : 97 ≤ c.toNat ∧ c.toNat ≤ 122
  · rw [if_pos h, if_pos h, toNat_charOfNat_of_lt (by omega)]
  · rw [if_neg h, if_neg h]

theorem toNat_jsToLower (c : Char) :
    (jsToLower c).toNat = if 65 ≤ c.toNat ∧ c.toNat ≤ 90 then c.toNat + 32 else c.toNat := by
  unfold jsToLower
  by_cases h : 65 ≤ c.toNat ∧ c.toNat ≤ 90
  · rw [if_pos h, if_pos h, toNat_charOfNat_of_lt (by omega)]
  · rw [if_neg h, if_neg h]

theorem jsToUpper_eq_self {x : Char} (h : ¬(97 ≤ x.toNat ∧ x.toNat ≤ 122)) :
    jsToUpper x = x := by
  unfold jsToUpper
  rw [if_neg h]

theorem jsToLower_eq_self {x : Char} (h : ¬(65 ≤ x.toNat ∧ x.toNat ≤ 90)) :
    jsToLower x = x := by
  unfold jsToLower
  rw [if_neg h]

theorem jsToUpper_jsToUpper (c : Char) : jsToUpper (jsToUpper c) = jsToUpper c := by
  have h := toNat_jsToUpper c
  by_cases hc : 97 ≤ c.toNat ∧ c.toNat ≤ 122
  · rw [if_pos hc] at h
    exact jsToUpper_eq_self (by omega)
  · rw [jsToUpper_eq_self hc]
    exact jsToUpper_eq_self hc

theorem jsToLower_jsToLower (c : Char) : jsToLower (jsToLower c) = jsToLower c := by
  have h := toNat_jsToLower c
  by_cases hc : 65 ≤ c.toNat ∧ c.toNat ≤ 90
  · rw [if_pos hc] at h
    exact jsToLower_eq_self (by omega)
  · rw [jsToLower_eq_self hc]
    exact jsToLower_eq_self hc

theorem isJsSpace_jsToUpper (c : Char) : isJsSpace (jsToUpper c) = isJsSpace c := by
  have h := toNat_jsToUpper c
  simp only [isJsSpace, decide_eq_decide]
  by_cases hc : 97 ≤ c.toNat ∧ c.toNat ≤ 122 <;>
    [rw [if_pos hc] at h; rw [if_neg hc] at h] <;> omega

theorem isJsSpace_jsToLower (c : Char) : isJsSpace (jsToLower c) = isJsSpace c := by
  have h := toNat_jsToLower c
  simp only [isJsSpace, decide_eq_decide]
  by_cases hc : 65 ≤ c.toNat ∧ c.toNat ≤ 90 <;>
    [rw [if_pos hc] at h; rw [if_neg hc] at h] <;> omega

theorem isWordChar_jsToUpper (c : Char) : isWordChar (jsToUpper c) = isWordChar c := by
  have h := toNat_jsToUpper c
  simp only [isWordChar, decide_eq_decide]
  by_cases hc : 97 ≤ c.toNat ∧ c.toNat ≤ 122 <;>
    [rw [if_pos hc] at h; rw [if_neg hc] at h] <;> omega

theorem isWordChar_jsToLower (c : Char) : isWordChar (jsToLower c) = isWordChar c := by
  have h := toNat_jsToLower c
  simp only [isWordChar, decide_eq_decide]
  by_cases hc : 65 ≤ c.toNat ∧ c.toNat ≤ 90 <;>
    [rw [if_pos hc] at h; rw [if_neg hc] at h] <;> omega

/-! ## Model of `cleanupName` (web.js lines 164-171)

The source is
  name = name.trim();
  name = name.replace(/\w\S*\/g, function(txt) \x7b
    return txt.charAt(0).toUpperCase() + txt.substr(1).toLowerCase(); \x7d);
`replaceWordsGo` is the left-to-right compilation of that global regex
replace: outside a match, a word character starts a match (its first
character upper-cased); inside a match, every further non-space character
is consumed by the greedy suffix and lower-cased; a space character ends
the match. -/

def replaceWordsGo : Bool → List Char → List Char
  | _, [] => []
  | false, c :: rest =>
    if isWordChar c then jsToUpper c :: replaceWordsGo true rest
    else c :: replaceWordsGo false rest
  | true, c :: rest =>
    if isJsSpace c then c :: replaceWordsGo false rest
    else jsToLower c :: replaceWordsGo true rest

/-- Removal of the maximal trailing run of whitespace, the trailing half of
JavaScript `trim()`. -/
def dropTrailingSpaces : List Char → List Char
  | [] => []
  | c :: rest =>
    let r := dropTrailingSpaces rest
    if r = [] ∧ isJsSpace c then [] else c :: r

/-- Model of JavaScript `String.prototype.trim`. -/
def trimChars (l : List Char) : List Char :=
  dropTrailingSpaces (l.dropWhile isJsSpace)

/-- Model of `cleanupName` from web.js: trim, then title-case every
`\w\S*` token. -/
def cleanupName (s : String) : String :=
  String.mk (replaceWordsGo false (trimChars s.data))

/-- Model of JavaScript `toUpperCase` on a whole string. -/
def jsUpper (s : String) : String :=
  String.mk (s.data.map jsToUpper)

example : cleanupName "john q public" = "John Q Public" := by decide
example : cleanupName "  JOHN MCDONALD  " = "John Mcdonald" := by decide
example : jsUpper "maybe" = "MAYBE" := by decide

/-! ## Model of the moment.js formatting used by the handler

The handler renders the case date with format `ddd, MMM Do` and the case
time, glued to the fixed reference date 1980-01-01, with format `h:mm A`.
Dates are modelled as year/month/day triples; the weekday is computed
with the standard Sakamoto congruence (0 = Sunday), which agrees with the
Gregorian calendar that moment.js uses. -/

structure CourtDate where
  year : Nat
  month : Nat
  day : Nat
deriving DecidableEq, Repr

def weekdayNames : List String :=
  ["Sun", "Mon", "Tue", "Wed", "Thu", "Fri", "Sat"]

def monthNames : List String :=
  ["Jan", "Feb", "Mar", "Apr", "May", "Jun", "Jul", "Aug", "Sep", "Oct", "Nov", "Dec"]

def sakamotoTable : List Nat := [0, 3, 2, 5, 0, 3, 5, 1, 4, 6, 2, 4]

def dayOfWeek (y m d : Nat) : Nat :=
  let z := if m < 3 then y - 1 else y
  (z + z / 4 - z / 100 + z / 400 + sakamotoTable.getD (m - 1) 0 + d) % 7

/-- Ordinal suffix as produced by the moment.js `Do` token. -/
def ordinalSuffix (d : Nat) : String :=
  if d % 100 = 11 ∨ d % 100 = 12 ∨ d % 100 = 13 then "th"
  else if d % 10 = 1 then "st"
  else if d % 10 = 2 then "nd"
  else if d % 10 = 3 then "rd"
  else "th"

/-- Rendering of a date with the moment.js format string `ddd, MMM Do`. -/
def formatDddMMMDo (dt : CourtDate) : String :=
  weekdayNames.getD (dayOfWeek dt.year dt.month dt.day) "" ++ ", " ++
    monthNames.getD (dt.month - 1) "" ++ " " ++ toString dt.day ++ ordinalSuffix dt.day

/-- Splits a character list at the first colon. -/
def splitAtColon : List Char → List Char × List Char
  | [] => ([], [])
  | c :: rest =>
    if c = ':' then ([], rest)
    else
      let p := splitAtColon rest
      (c :: p.1, p.2)

def digitsToNat (l : List Char) : Nat :=
  l.foldl (fun n c => n * 10 + (c.toNat - 48)) 0

/-- Rendering of a stored `HH:MM` time string through
`moment("1980-01-01 " + time).format("h:mm A")`: the fixed reference date
contributes nothing, so only the clock time is parsed and re-rendered in
12-hour form. -/
def formatHmmA (time : String) : String :=
  let p := splitAtColon time.data
  let h := digitsToNat p.1
  let m := digitsToNat p.2
  let h12 := if h % 12 = 0 then 12 else h % 12
  let ampm := if h < 12 then "AM" else "PM"
  toString h12 ++ ":" ++ (if m < 10 then "0" ++ toString m else toString m) ++ " " ++ ampm

example : formatDddMMMDo ⟨2024, 3, 4⟩ = "Mon, Mar 4th" := by decide
example : formatHmmA "14:30" = "2:30 PM" := by decide

/-! ## Data model -/

/-- A court case row as returned by the citation store. Queue rows handed
back by `findAskedQueued` flow through the same code path
(`handleReminderResponse`), so they are modelled with the same record
type; only their identity is observed by the handler. -/
structure CaseRecord where
  id : String
  defendant : String
  date : CourtDate
  time : String
  room : String
deriving DecidableEq, Repr

/-- The per-sender express session fields touched by the handler:
`askedReminder`, `match`, `askedQueued`, `citationId`. The two nullable
fields start out absent, which `Option` models. -/
structure Session where
  askedReminder : Bool
  matchRec : Option CaseRecord
  askedQueued : Bool
  citationId : Option String
deriving DecidableEq, Repr

/-- Environment configuration interpolated into outbound texts. -/
structure Env where
  queueTtlDays : String
  courtPublicUrl : String
deriving DecidableEq, Repr

/-- The database as seen by one request: `findCitation` keyed by query
text, and the list of queued rows `findAskedQueued` returns for the
sender's phone number. -/
structure Db where
  findCitation : String → List CaseRecord
  findAskedQueued : List CaseRecord

/-- Observable outcome of one handler run: the accumulated twiml
segments, the final session, every `res.send` attempt (each carrying the
twiml contents at that moment), every `db.addReminder` write, every
`db.addQueued` write, and every citation query issued. -/
structure SmsResult where
  twiml : List String
  session : Session
  sends : List (List String)
  reminders : List (Option CaseRecord)
  queuedWrites : List (Option String)
  queries : List String
deriving DecidableEq, Repr

/-! ## Outbound message texts (web.js literals) -/

/-- The apostrophe character, kept out of string literals. -/
def apos : String := String.mk [Char.ofNat 39]

def msgReminderYes1 : String :=
  "(1/2) Sounds good. We will attempt to text you a courtesy reminder the day before your case. Note that case schedules frequently change."

def msgReminderYes2 (env : Env) : String :=
  "(2/2) You should always confirm your case date and time by going to " ++ env.courtPublicUrl

def msgOptOut (env : Env) : String :=
  "OK. You can always go to " ++ env.courtPublicUrl ++ " for more information about your case and contact information."

def msgQueueYes (env : Env) : String :=
  "OK. We will keep checking for up to " ++ env.queueTtlDays ++ " days. You can always go to " ++ env.courtPublicUrl ++ " for more information about your case and contact information."

def msgNotFound1 : String :=
  "(1/2) Could not find a case with that number. It can take several days for a case to appear in our system."

def msgNotFound2 (env : Env) : String :=
  "(2/2) Would you like us to keep checking for the next " ++ env.queueTtlDays ++ " days and text you if we find it? (reply YES or NO)"

def msgMalformed : String :=
  "Couldn" ++ apos ++ "t find your case. Case identifier should be 6 to 25 numbers and/or letters in length."

/-- The unique-match case summary (web.js line 153). -/
def caseSummary (m : CaseRecord) : String :=
  "Found a case for " ++ cleanupName m.defendant ++ " scheduled on " ++
    formatDddMMMDo m.date ++ " at " ++ formatHmmA m.time ++ ", at " ++ m.room ++
    ". Would you like a courtesy reminder the day before? (reply YES or NO)"

/-! ## The `POST /sms` handler (web.js lines 66-162) -/

def initialState (session : Session) : SmsResult :=
  { twiml := [], session := session, sends := [], reminders := [],
    queuedWrites := [], queries := [] }

/-- One `twiml.sms(...)` call: appends a segment to the accumulated reply. -/
def smsSeg (msg : String) (st : SmsResult) : SmsResult :=
  { st with twiml := st.twiml ++ [msg] }

/-- One `res.send(twiml.toString())` call: records a send attempt carrying
everything accumulated in the twiml response so far. -/
def sendTwiml (st : SmsResult) : SmsResult :=
  { st with sends := st.sends ++ [st.twiml] }

/-- The affirmative test on web.js lines 72 and 109. -/
def isAffirmative (t : String) : Bool :=
  t == "YES" || t == "YEA" || t == "YUP" || t == "Y"

/-- The negative test on web.js lines 83 and 123. -/
def isNegative (t : String) : Bool :=
  t == "NO" || t == "N"

/-- The inner function `handleReminderResponse` (web.js lines 70-88):
affirmative stores a reminder row built from `match`, replies with the
two-part confirmation, clears `askedReminder` and sends; negative replies
with the opt-out text, clears `askedReminder` and sends; anything else
does nothing. -/
def handleReminderResponse (env : Env) (text : String) (m : Option CaseRecord)
    (st : SmsResult) : SmsResult :=
  if isAffirmative text then
    let st := { st with reminders := st.reminders ++ [m] }
    let st := smsSeg msgReminderYes1 st
    let st := smsSeg (msgReminderYes2 env) st
    let st := { st with session := { st.session with askedReminder := false } }
    sendTwiml st
  else if isNegative text then
    let st := smsSeg (msgOptOut env) st
    let st := { st with session := { st.session with askedReminder := false } }
    sendTwiml st
  else st

/-- Web.js lines 90-106: an in-memory `askedReminder` session answers the
reminder question from `req.session.match`; otherwise the queue store is
consulted and, when it holds exactly one row for the sender, that row is
fed to `handleReminderResponse`. In both cases execution then continues
into the rest of the handler. -/
def reminderPhase (env : Env) (db : Db) (text : String) (st : SmsResult) : SmsResult :=
  if st.session.askedReminder then
    handleReminderResponse env text st.session.matchRec st
  else
    match db.findAskedQueued with
    | [row] => handleReminderResponse env text (some row) st
    | _ => st

/-- The `askedQueued` affirmative branch (web.js lines 109-122): persist a
queued lookup for the pending citation, reply, clear the flag, send —
and, the callback `return` notwithstanding, fall through to the citation
lookup. -/
def queueYesStep (env : Env) (st : SmsResult) : SmsResult :=
  let st := { st with queuedWrites := st.queuedWrites ++ [st.session.citationId] }
  let st := smsSeg (msgQueueYes env) st
  let st := { st with session := { st.session with askedQueued := false } }
  sendTwiml st

/-- The `askedQueued` negative branch (web.js lines 123-128): reply, clear
the flag, send, and return from the handler. -/
def queueNoStep (env : Env) (st : SmsResult) : SmsResult :=
  let st := smsSeg (msgOptOut env) st
  let st := { st with session := { st.session with askedQueued := false } }
  sendTwiml st

/-- The `db.findCitation` callback (web.js lines 132-161): a single exact
hit produces the case summary and arms the reminder question; zero hits
and multiple hits are treated alike, splitting on whether the query text
length lies in [6, 25]; every branch ends in `res.send`. -/
def lookupStep (env : Env) (db : Db) (text : String) (st : SmsResult) : SmsResult :=
  let results := db.findCitation text
  let st := { st with queries := st.queries ++ [text] }
  match results with
  | [m] =>
    let st := smsSeg (caseSummary m) st
    let st := { st with session :=
      { st.session with matchRec := some m, askedReminder := true } }
    sendTwiml st
  | _ =>
    if 6 ≤ text.length ∧ text.length ≤ 25 then
      let st := smsSeg msgNotFound1 st
      let st := smsSeg (msgNotFound2 env) st
      let st := { st with session :=
        { st.session with askedQueued := true, citationId := some text } }
      sendTwiml st
    else
      sendTwiml (smsSeg msgMalformed st)

/-- The whole `POST /sms` handler: upper-case the body, run the reminder
phase, then the `askedQueued` confirmation (whose negative branch is the
only early return), then the citation lookup. -/
def smsHandler (env : Env) (db : Db) (session0 : Session) (body : String) : SmsResult :=
  let text := jsUpper body
  let st := reminderPhase env db text (initialState session0)
  if st.session.askedQueued then
    if isAffirmative text then
      lookupStep env db text (queueYesStep env st)
    else if isNegative text then
      queueNoStep env st
    else
      lookupStep env db text st
  else
    lookupStep env db text st

/-! ## Small facts about the handler steps -/

theorem jsUpper_length (s : String) : (jsUpper s).length = s.length := by
  show (s.data.map jsToUpper).length = s.data.length
  exact List.length_map _ _

theorem handleReminderResponse_askedQueued (env : Env) (text : String)
    (m : Option CaseRecord) (st : SmsResult) :
    (handleReminderResponse env text m st).session.askedQueued = st.session.askedQueued := by
  unfold handleReminderResponse smsSeg sendTwiml
  split_ifs <;> rfl

theorem handleReminderResponse_citationId (env : Env) (text : String)
    (m : Option CaseRecord) (st : SmsResult) :
    (handleReminderResponse env text m st).session.citationId = st.session.citationId := by
  unfold handleReminderResponse smsSeg sendTwiml
  split_ifs <;> rfl

theorem handleReminderResponse_queries (env : Env) (text : String)
    (m : Option CaseRecord) (st : SmsResult) :
    (handleReminderResponse env text m st).queries = st.queries := by
  unfold handleReminderResponse smsSeg sendTwiml
  split_ifs <;> rfl

theorem handleReminderResponse_queuedWrites (env : Env) (text : String)
    (m : Option CaseRecord) (st : SmsResult) :
    (handleReminderResponse env text m st).queuedWrites = st.queuedWrites := by
  unfold handleReminderResponse smsSeg sendTwiml
  split_ifs <;> rfl

theorem handleReminderResponse_of_unrecognized (env : Env) (text : String)
    (m : Option CaseRecord) (st : SmsResult)
    (ha : isAffirmative text = false) (hn : isNegative text = false) :
    handleReminderResponse env text m st = st := by
  unfold handleReminderResponse
  rw [ha, hn]
  rfl

theorem lookupStep_queries (env : Env) (db : Db) (text : String) (st : SmsResult) :
    (lookupStep env db text st).queries = st.queries ++ [text] := by
  unfold lookupStep smsSeg sendTwiml
  rcases db.findCitation text with _ | ⟨a, _ | ⟨b, l⟩⟩ <;> (try split_ifs) <;> rfl

theorem lookupStep_sends_length (env : Env) (db : Db) (text : String) (st : SmsResult) :
    (lookupStep env db text st).sends.length = st.sends.length + 1 := by
  unfold lookupStep smsSeg sendTwiml
  rcases db.findCitation text with _ | ⟨a, _ | ⟨b, l⟩⟩ <;> (try split_ifs) <;>
    simp [List.length_append]

theorem lookupStep_reminders (env : Env) (db : Db) (text : String) (st : SmsResult) :
    (lookupStep env db text st).reminders = st.reminders := by
  unfold lookupStep smsSeg sendTwiml
  rcases db.findCitation text with _ | ⟨a, _ | ⟨b, l⟩⟩ <;> (try split_ifs) <;> rfl

theorem lookupStep_queuedWrites (env : Env) (db : Db) (text : String) (st : SmsResult) :
    (lookupStep env db text st).queuedWrites = st.queuedWrites := by
  unfold lookupStep smsSeg sendTwiml
  rcases db.findCitation text with _ | ⟨a, _ | ⟨b, l⟩⟩ <;> (try split_ifs) <;> rfl

/-! ## Concrete fixtures used by witnesses and counterexamples -/

def env0 : Env := { queueTtlDays := "16", courtPublicUrl := "http://courts.example" }

def dbEmpty : Db := { findCitation := fun _ => [], findAskedQueued := [] }

def idleSession : Session :=
  { askedReminder := false, matchRec := none, askedQueued := false, citationId := none }

def caseZ9 : CaseRecord :=
  { id := "42", defendant := "john q public", date := ⟨2024, 3, 4⟩,
    time := "14:30", room := "101" }

def dbZ9 : Db :=
  { findCitation := fun t => if t = "Z-9" then [caseZ9] else [], findAskedQueued := [] }

def dbTwo : Db :=
  { findCitation := fun _ => [caseZ9, caseZ9], findAskedQueued := [] }

/-! ## Claims -/

/-- C1: for an inbound citation text of length 6 to 25 for which the
citation store returns zero or more than one exact match, handling the
message from an idle sender sets `askedQueued`, stores the queried text
as the pending citation, leaves `askedReminder` unset, and replies with
exactly the two-part keep-checking offer. -/
theorem claim1_queue_offer (env : Env) (db : Db) (session : Session) (body : String)
    (hR : session.askedReminder = false) (hQ : session.askedQueued = false)
    (hrows : db.findAskedQueued = [])
    (hmiss : (db.findCitation (jsUpper body)).length ≠ 1)
    (hlo : 6 ≤ body.length) (hhi : body.length ≤ 25) :
    (smsHandler env db session body).session.askedQueued = true ∧
    (smsHandler env db session body).session.citationId = some (jsUpper body) ∧
    (smsHandler env db session body).session.askedReminder = false ∧
    (smsHandler env db session body).sends = [[msgNotFound1, msgNotFound2 env]] := by
  have hlen : (jsUpper body).length = body.length := jsUpper_length body
  simp only [smsHandler, reminderPhase, initialState, hrows, hR, hQ,
    Bool.false_eq_true, if_false, lookupStep]
  rcases hcit : db.findCitation (jsUpper body) with _ | ⟨a, _ | ⟨b, l⟩⟩
  · simp [hlen, hlo, hhi, smsSeg, sendTwiml, hR]
  · exact absurd (by rw [hcit]; rfl) hmiss
  · simp [hlen, hlo, hhi, smsSeg, sendTwiml, hR]

/-- Witness for C1: the spec scenario, citation `ABC123` with an empty
store. -/
theorem claim1_queue_offer_witness :
    (smsHandler env0 dbEmpty idleSession "ABC123").session.askedQueued = true ∧
    (smsHandler env0 dbEmpty idleSession "ABC123").session.citationId = some "ABC123" ∧
    (smsHandler env0 dbEmpty idleSession "ABC123").session.askedReminder = false ∧
    (smsHandler env0 dbEmpty idleSession "ABC123").sends =
      [[msgNotFound1, msgNotFound2 env0]] := by
  have h := claim1_queue_offer env0 dbEmpty idleSession "ABC123"
    rfl rfl rfl (by decide) (by decide) (by decide)
  rw [show jsUpper "ABC123" = "ABC123" from by decide] at h
  exact h

/-- C5: for an inbound citation text with no unique match whose length is
outside [6, 25], the reply is the single format-error message and the
idle session is left completely unchanged. -/
theorem claim5_malformed (env : Env) (db : Db) (session : Session) (body : String)
    (hR : session.askedReminder = false) (hQ : session.askedQueued = false)
    (hrows : db.findAskedQueued = [])
    (hmiss : (db.findCitation (jsUpper body)).length ≠ 1)
    (hlen : body.length < 6 ∨ 25 < body.length) :
    (smsHandler env db session body).sends = [[msgMalformed]] ∧
    (smsHandler env db session body).session = session := by
  have hl : (jsUpper body).length = body.length := jsUpper_length body
  have hcond : ¬(6 ≤ (jsUpper body).length ∧ (jsUpper body).length ≤ 25) := by
    rw [hl]; omega
  simp only [smsHandler, reminderPhase, initialState, hrows, hR, hQ,
    Bool.false_eq_true, if_false, lookupStep]
  rcases hcit : db.findCitation (jsUpper body) with _ | ⟨a, _ | ⟨b, l⟩⟩
  · simp [hcond, smsSeg, sendTwiml]
  · exact absurd (by rw [hcit]; rfl) hmiss
  · simp [hcond, smsSeg, sendTwiml]

/-- Witness for C5: the spec scenario, citation `123` (3 characters). -/
theorem claim5_malformed_witness :
    (smsHandler env0 dbEmpty idleSession "123").sends = [[msgMalformed]] ∧
    (smsHandler env0 dbEmpty idleSession "123").session = idleSession :=
  claim5_malformed env0 dbEmpty idleSession "123" rfl rfl rfl (by decide)
    (by decide)

/-- C7: a store returning more than one exact match for the query yields a
handler outcome identical, in every observable, to a store returning no
match at all. -/
theorem claim7_ambiguous_eq_miss (env : Env) (session : Session) (body : String)
    (db1 db2 : Db) (hq : db1.findAskedQueued = db2.findAskedQueued)
    (h1 : db1.findCitation (jsUpper body) = [])
    (a b : CaseRecord) (rest : List CaseRecord)
    (h2 : db2.findCitation (jsUpper body) = a :: b :: rest) :
    smsHandler env db1 session body = smsHandler env db2 session body := by
  simp only [smsHandler, reminderPhase, lookupStep, hq, h1, h2]

/-- Witness for C7: empty store versus a store with two hits. -/
theorem claim7_ambiguous_eq_miss_witness :
    smsHandler env0 dbEmpty idleSession "ABC123" =
      smsHandler env0 dbTwo idleSession "ABC123" :=
  claim7_ambiguous_eq_miss env0 idleSession "ABC123" dbEmpty dbTwo rfl rfl
    caseZ9 caseZ9 [] rfl

/-! ## Shape lemmas: how the handler decomposes under each session state -/

theorem reminderPhase_of_askedReminder (env : Env) (db : Db) (text : String)
    (st : SmsResult) (h : st.session.askedReminder = true) :
    reminderPhase env db text st =
      handleReminderResponse env text st.session.matchRec st := by
  unfold reminderPhase
  simp [h]

theorem reminderPhase_of_idle (env : Env) (db : Db) (text : String)
    (st : SmsResult) (h : st.session.askedReminder = false)
    (hrows : db.findAskedQueued = []) :
    reminderPhase env db text st = st := by
  unfold reminderPhase
  simp [h, hrows]

theorem reminderPhase_of_row (env : Env) (db : Db) (text : String)
    (st : SmsResult) (row : CaseRecord) (h : st.session.askedReminder = false)
    (hrows : db.findAskedQueued = [row]) :
    reminderPhase env db text st = handleReminderResponse env text (some row) st := by
  unfold reminderPhase
  simp [h, hrows]

/-- For a plain idle sender (no flags, no queued row) the handler is just
the citation lookup. -/
theorem smsHandler_idle_eq (env : Env) (db : Db) (session : Session) (body : String)
    (hR : session.askedReminder = false) (hQ : session.askedQueued = false)
    (hrows : db.findAskedQueued = []) :
    smsHandler env db session body =
      lookupStep env db (jsUpper body) (initialState session) := by
  simp only [smsHandler]
  rw [reminderPhase_of_idle env db (jsUpper body) (initialState session) hR hrows]
  have h : (initialState session).session.askedQueued = false := hQ
  simp [h]

/-- For a sender with the reminder question pending the handler is the
reminder response followed by the citation lookup. -/
theorem smsHandler_reminder_eq (env : Env) (db : Db) (session : Session) (body : String)
    (hR : session.askedReminder = true) (hQ : session.askedQueued = false) :
    smsHandler env db session body =
      lookupStep env db (jsUpper body)
        (handleReminderResponse env (jsUpper body) session.matchRec
          (initialState session)) := by
  simp only [smsHandler]
  rw [reminderPhase_of_askedReminder env db (jsUpper body) (initialState session) hR]
  have h : (handleReminderResponse env (jsUpper body)
      (initialState session).session.matchRec
      (initialState session)).session.askedQueued = false := by
    rw [handleReminderResponse_askedQueued]
    exact hQ
  simp only [h, Bool.false_eq_true, if_false]
  rfl

/-- For a sender with no in-memory flags but exactly one queued row the
handler is the reminder response fed with that row, followed by the
citation lookup. -/
theorem smsHandler_row_eq (env : Env) (db : Db) (session : Session) (body : String)
    (row : CaseRecord)
    (hR : session.askedReminder = false) (hQ : session.askedQueued = false)
    (hrows : db.findAskedQueued = [row]) :
    smsHandler env db session body =
      lookupStep env db (jsUpper body)
        (handleReminderResponse env (jsUpper body) (some row)
          (initialState session)) := by
  simp only [smsHandler]
  rw [reminderPhase_of_row env db (jsUpper body) (initialState session) row hR hrows]
  have h : (handleReminderResponse env (jsUpper body) (some row)
      (initialState session)).session.askedQueued = false := by
    rw [handleReminderResponse_askedQueued]
    exact hQ
  simp [h]

theorem handleReminderResponse_sends_length_rec (env : Env) (text : String)
    (m : Option CaseRecord) (st : SmsResult)
    (h : isAffirmative text = true ∨ isNegative text = true) :
    (handleReminderResponse env text m st).sends.length = st.sends.length + 1 := by
  unfold handleReminderResponse smsSeg sendTwiml
  rcases h with h | h
  · simp [h]
  · by_cases h2 : isAffirmative text = true
    · simp [h2]
    · simp [h2, h]

theorem handleReminderResponse_askedReminder_rec (env : Env) (text : String)
    (m : Option CaseRecord) (st : SmsResult)
    (h : isAffirmative text = true ∨ isNegative text = true) :
    (handleReminderResponse env text m st).session.askedReminder = false := by
  unfold handleReminderResponse smsSeg sendTwiml
  rcases h with h | h
  · simp [h]
  · by_cases h2 : isAffirmative text = true
    · simp [h2]
    · simp [h2, h]

theorem handleReminderResponse_reminders_affirm (env : Env) (text : String)
    (m : Option CaseRecord) (st : SmsResult) (h : isAffirmative text = true) :
    (handleReminderResponse env text m st).reminders = st.reminders ++ [m] := by
  unfold handleReminderResponse smsSeg sendTwiml
  simp [h]

theorem handleReminderResponse_reminders_of_not_affirm (env : Env) (text : String)
    (m : Option CaseRecord) (st : SmsResult) (h : isAffirmative text = false) :
    (handleReminderResponse env text m st).reminders = st.reminders := by
  unfold handleReminderResponse smsSeg sendTwiml
  by_cases h2 : isNegative text = true <;> simp [h, h2]

theorem lookupStep_session_of_malformed (env : Env) (db : Db) (text : String)
    (st : SmsResult) (hmiss : (db.findCitation text).length ≠ 1)
    (hlen : ¬(6 ≤ text.length ∧ text.length ≤ 25)) :
    (lookupStep env db text st).session = st.session := by
  unfold lookupStep smsSeg sendTwiml
  rcases hcit : db.findCitation text with _ | ⟨a, _ | ⟨b, l⟩⟩
  · simp [hlen]
  · exact absurd (by rw [hcit]; rfl) hmiss
  · simp [hlen]

/-- C2 counterexample: a sender in `AwaitingQueueConfirm` who replies
`maybe` does get an outbound message — the handler falls through to a
fresh citation lookup and replies with the format-error text — so the
claim that no outbound message is produced is false (the state itself is
left unchanged). -/
def queueSession : Session :=
  { askedReminder := false, matchRec := none, askedQueued := true,
    citationId := some "FOO123" }

theorem claim2_counterexample :
    (smsHandler env0 dbEmpty queueSession "maybe").sends = [[msgMalformed]] ∧
    (smsHandler env0 dbEmpty queueSession "maybe").sends ≠ [] ∧
    (smsHandler env0 dbEmpty queueSession "maybe").session = queueSession := by
  refine ⟨by decide, ?_, by decide⟩
  intro h
  rw [show (smsHandler env0 dbEmpty queueSession "maybe").sends = [[msgMalformed]]
    from by decide] at h
  exact absurd h (by decide)

/-- C2 amended: an unrecognized reply while `askedQueued` is pending is
not consumed by the pending question; the handler falls through to a
fresh citation lookup on the same text. When that lookup finds no unique
match and the text length is outside [6, 25] (as for `maybe`), the reply
is the format-error message, the session is left unchanged, and the
citation query is issued. -/
theorem claim2_queueconfirm_fallthrough (env : Env) (db : Db) (session : Session)
    (body : String)
    (hR : session.askedReminder = false) (hQ : session.askedQueued = true)
    (hrows : db.findAskedQueued = [])
    (ha : isAffirmative (jsUpper body) = false)
    (hn : isNegative (jsUpper body) = false)
    (hmiss : (db.findCitation (jsUpper body)).length ≠ 1)
    (hlen : body.length < 6 ∨ 25 < body.length) :
    (smsHandler env db session body).sends = [[msgMalformed]] ∧
    (smsHandler env db session body).session = session ∧
    (smsHandler env db session body).queries = [jsUpper body] := by
  have hl : (jsUpper body).length = body.length := jsUpper_length body
  have hcond : ¬(6 ≤ (jsUpper body).length ∧ (jsUpper body).length ≤ 25) := by
    rw [hl]; omega
  simp only [smsHandler]
  rw [reminderPhase_of_idle env db (jsUpper body) (initialState session) hR hrows]
  have h1 : (initialState session).session.askedQueued = true := hQ
  simp only [h1, if_true, ha, hn, Bool.false_eq_true, if_false, lookupStep]
  rcases hcit : db.findCitation (jsUpper body) with _ | ⟨a, _ | ⟨b, l⟩⟩
  · simp [hcond, smsSeg, sendTwiml, initialState]
  · exact absurd (by rw [hcit]; rfl) hmiss
  · simp [hcond, smsSeg, sendTwiml, initialState]

/-- Witness for the amended C2: the `maybe` scenario itself. -/
theorem claim2_queueconfirm_fallthrough_witness :
    (smsHandler env0 dbEmpty queueSession "maybe").sends = [[msgMalformed]] ∧
    (smsHandler env0 dbEmpty queueSession "maybe").session = queueSession ∧
    (smsHandler env0 dbEmpty queueSession "maybe").queries = [jsUpper "maybe"] :=
  claim2_queueconfirm_fallthrough env0 dbEmpty queueSession "maybe" rfl rfl rfl
    (by decide) (by decide) (by decide) (by decide)

/-- The normalization the spec describes for the query text: trimmed and
upper-cased. Modelled from the spec for comparison with the code. -/
def specQueryText (s : String) : String :=
  jsUpper (String.mk (trimChars s.data))

/-- C8 counterexample: for the body `" abc12"` (leading space) the
citation query the handler issues is the merely upper-cased `" ABC12"`,
not the trimmed-and-upper-cased `"ABC12"` the claim describes; the
leading space also survives into the length validation. -/
theorem claim8_counterexample :
    (smsHandler env0 dbEmpty idleSession " abc12").queries = [" ABC12"] ∧
    specQueryText " abc12" = "ABC12" ∧
    (" ABC12" : String) ≠ "ABC12" := by
  refine ⟨by decide, by decide, ?_⟩
  intro h
  exact absurd h (by decide)

/-- C8 amended: the query text used for the citation lookup and length
validation is the raw body text upper-cased only (not trimmed). The
lookup is reached, with exactly this query, from every session state
whose `askedQueued` flag is clear. -/
theorem claim8_query_uppercased_only (env : Env) (db : Db) (session : Session)
    (body : String) (hQ : session.askedQueued = false) :
    (smsHandler env db session body).queries = [jsUpper body] := by
  simp only [smsHandler]
  by_cases hR : (initialState session).session.askedReminder = true
  · rw [reminderPhase_of_askedReminder env db (jsUpper body) (initialState session) hR]
    have h : (handleReminderResponse env (jsUpper body)
        (initialState session).session.matchRec
        (initialState session)).session.askedQueued = false := by
      rw [handleReminderResponse_askedQueued]; exact hQ
    simp only [h, Bool.false_eq_true, if_false, lookupStep_queries,
      handleReminderResponse_queries]
    rfl
  · have hR2 : (initialState session).session.askedReminder = false := by
      revert hR; cases session.askedReminder <;> simp [initialState]
    rcases hrows : db.findAskedQueued with _ | ⟨row, _ | ⟨r2, l⟩⟩
    · rw [reminderPhase_of_idle env db (jsUpper body) (initialState session) hR2 hrows]
      have h : (initialState session).session.askedQueued = false := hQ
      simp only [h, Bool.false_eq_true, if_false, lookupStep_queries]
      rfl
    · rw [reminderPhase_of_row env db (jsUpper body) (initialState session) row hR2 hrows]
      have h : (handleReminderResponse env (jsUpper body) (some row)
          (initialState session)).session.askedQueued = false := by
        rw [handleReminderResponse_askedQueued]; exact hQ
      simp only [h, Bool.false_eq_true, if_false, lookupStep_queries,
        handleReminderResponse_queries]
      rfl
    · have hrp : reminderPhase env db (jsUpper body) (initialState session) =
          initialState session := by
        unfold reminderPhase
        simp [hR2, hrows]
      rw [hrp]
      have h : (initialState session).session.askedQueued = false := hQ
      simp only [h, Bool.false_eq_true, if_false, lookupStep_queries]
      rfl

/-- Witness for the amended C8: the leading-space input. -/
theorem claim8_query_uppercased_only_witness :
    (smsHandler env0 dbEmpty idleSession " abc12").queries = [jsUpper " abc12"] :=
  claim8_query_uppercased_only env0 dbEmpty idleSession " abc12" rfl

/-- C9: a sender whose session has the reminder question pending and who
sends a recognized affirmative or negative reply gets the confirmation
send, after which the handler still runs the citation lookup on the same
text and attempts a second send: one inbound message, two reply
attempts. -/
theorem claim9_double_send (env : Env) (db : Db) (session : Session) (body : String)
    (hR : session.askedReminder = true) (hQ : session.askedQueued = false)
    (hrec : isAffirmative (jsUpper body) = true ∨ isNegative (jsUpper body) = true) :
    (smsHandler env db session body).sends.length = 2 ∧
    (smsHandler env db session body).queries = [jsUpper body] := by
  rw [smsHandler_reminder_eq env db session body hR hQ]
  constructor
  · rw [lookupStep_sends_length, handleReminderResponse_sends_length_rec _ _ _ _ hrec]
    rfl
  · rw [lookupStep_queries, handleReminderResponse_queries]
    rfl

/-- Witness for C9: a pending reminder answered with `yes`. -/
theorem claim9_double_send_witness :
    (smsHandler env0 dbEmpty
      { idleSession with askedReminder := true, matchRec := some caseZ9 }
      "yes").sends.length = 2 ∧
    (smsHandler env0 dbEmpty
      { idleSession with askedReminder := true, matchRec := some caseZ9 }
      "yes").queries = [jsUpper "yes"] :=
  claim9_double_send env0 dbEmpty
    { idleSession with askedReminder := true, matchRec := some caseZ9 }
    "yes" rfl rfl (Or.inl (by decide))

/-- C3: from `AwaitingReminderConfirm`, answering `YES` and then `YES`
again creates exactly one reminder row in the first turn and none in the
second: the second affirmative finds no pending question (no session
flag, no queued row) and the fresh lookup it falls into writes no
subscription. -/
theorem claim3_single_subscription (env : Env) (db : Db) (session : Session)
    (hR : session.askedReminder = true) (hQ : session.askedQueued = false)
    (hrows : db.findAskedQueued = [])
    (hyes : (db.findCitation "YES").length ≠ 1) :
    (smsHandler env db session "YES").reminders = [session.matchRec] ∧
    (smsHandler env db (smsHandler env db session "YES").session "YES").reminders
      = [] := by
  have hup : jsUpper "YES" = "YES" := by decide
  have haff : isAffirmative "YES" = true := by decide
  have hlen : ¬(6 ≤ ("YES" : String).length ∧ ("YES" : String).length ≤ 25) := by
    decide
  have e1 : smsHandler env db session "YES" =
      lookupStep env db "YES"
        (handleReminderResponse env "YES" session.matchRec (initialState session)) := by
    have e := smsHandler_reminder_eq env db session "YES" hR hQ
    rw [hup] at e
    exact e
  constructor
  · rw [e1, lookupStep_reminders, handleReminderResponse_reminders_affirm _ _ _ _ haff]
    rfl
  · have h1R : (smsHandler env db session "YES").session.askedReminder = false := by
      rw [e1, lookupStep_session_of_malformed env db "YES" _ hyes hlen,
        handleReminderResponse_askedReminder_rec _ _ _ _ (Or.inl haff)]
    have h1Q : (smsHandler env db session "YES").session.askedQueued = false := by
      rw [e1, lookupStep_session_of_malformed env db "YES" _ hyes hlen,
        handleReminderResponse_askedQueued]
      exact hQ
    rw [smsHandler_idle_eq env db _ "YES" h1R h1Q hrows, lookupStep_reminders]
    rfl

/-- Witness for C3: a pending reminder for the Z-9 case, empty store. -/
theorem claim3_single_subscription_witness :
    (smsHandler env0 dbEmpty
      { idleSession with askedReminder := true, matchRec := some caseZ9 }
      "YES").reminders = [some caseZ9] ∧
    (smsHandler env0 dbEmpty
      (smsHandler env0 dbEmpty
        { idleSession with askedReminder := true, matchRec := some caseZ9 }
        "YES").session "YES").reminders = [] :=
  claim3_single_subscription env0 dbEmpty
    { idleSession with askedReminder := true, matchRec := some caseZ9 }
    rfl rfl rfl (by decide)

/-- C4 counterexample: for an idle sender with exactly one unresolved
queued row, an affirmative reply is handled by the reminder-confirmation
logic, not as an implicit queue confirmation: it writes a
ReminderSubscription built from the queued row and writes no
QueuedLookup, contradicting the claimed implicit `AwaitingQueueConfirm`
treatment. -/
def db4 : Db := { findCitation := fun _ => [], findAskedQueued := [caseZ9] }

theorem claim4_counterexample :
    (smsHandler env0 db4 idleSession "YES").queuedWrites = [] ∧
    (smsHandler env0 db4 idleSession "YES").reminders = [some caseZ9] := by
  exact ⟨by decide, by decide⟩

/-- C4 amended: with no in-memory conversation state the controller does
query the subscription store first and, when exactly one unresolved
queued row is addressed to the sender, treats the message as answering a
pending reminder confirmation for that row — an affirmative creates a
ReminderSubscription from the row and no QueuedLookup — and the handler
then still continues into the fresh-lookup path rather than stopping. -/
theorem claim4_row_resumes_reminder (env : Env) (db : Db) (session : Session)
    (body : String) (row : CaseRecord)
    (hR : session.askedReminder = false) (hQ : session.askedQueued = false)
    (hrows : db.findAskedQueued = [row])
    (haff : isAffirmative (jsUpper body) = true) :
    (smsHandler env db session body).reminders = [some row] ∧
    (smsHandler env db session body).queuedWrites = [] ∧
    (smsHandler env db session body).queries = [jsUpper body] := by
  rw [smsHandler_row_eq env db session body row hR hQ hrows]
  refine ⟨?_, ?_, ?_⟩
  · rw [lookupStep_reminders, handleReminderResponse_reminders_affirm _ _ _ _ haff]
    rfl
  · rw [lookupStep_queuedWrites, handleReminderResponse_queuedWrites]
    rfl
  · rw [lookupStep_queries, handleReminderResponse_queries]
    rfl

/-- Witness for the amended C4. -/
theorem claim4_row_resumes_reminder_witness :
    (smsHandler env0 db4 idleSession "YES").reminders = [some caseZ9] ∧
    (smsHandler env0 db4 idleSession "YES").queuedWrites = [] ∧
    (smsHandler env0 db4 idleSession "YES").queries = [jsUpper "YES"] :=
  claim4_row_resumes_reminder env0 db4 idleSession "YES" caseZ9 rfl rfl rfl
    (by decide)

/-- C6: a unique match makes the reply the single case summary — which by
definition renders the defendant through `cleanupName` (title case), the
date through the `ddd, MMM Do` format and the time through `h:mm A` with
the fixed reference date — and arms the reminder question with the case
snapshot stored. -/
theorem claim6_unique_match (env : Env) (db : Db) (session : Session) (body : String)
    (m : CaseRecord)
    (hR : session.askedReminder = false) (hQ : session.askedQueued = false)
    (hrows : db.findAskedQueued = [])
    (hfound : db.findCitation (jsUpper body) = [m]) :
    (smsHandler env db session body).sends = [[caseSummary m]] ∧
    (smsHandler env db session body).session.askedReminder = true ∧
    (smsHandler env db session body).session.matchRec = some m ∧
    (smsHandler env db session body).session.askedQueued = false := by
  rw [smsHandler_idle_eq env db session body hR hQ hrows]
  simp only [lookupStep, hfound]
  simp [smsSeg, sendTwiml, initialState, hQ]

/-- Witness for C6: the spec scenario — citation `Z-9`, defendant
`john q public`, date 2024-03-04, time `14:30`, room `101` — rendered as
`John Q Public`, `Mon, Mar 4th`, `2:30 PM`, ending in the reminder
prompt. -/
theorem claim6_unique_match_witness :
    (smsHandler env0 dbZ9 idleSession "z-9").sends =
      [["Found a case for John Q Public scheduled on Mon, Mar 4th at 2:30 PM, at 101. Would you like a courtesy reminder the day before? (reply YES or NO)"]] ∧
    (smsHandler env0 dbZ9 idleSession "z-9").session.askedReminder = true ∧
    (smsHandler env0 dbZ9 idleSession "z-9").session.matchRec = some caseZ9 := by
  have h := claim6_unique_match env0 dbZ9 idleSession "z-9" caseZ9 rfl rfl rfl
    (by decide)
  exact ⟨h.1.trans (by decide), h.2.1, h.2.2.1⟩

/-! ## Idempotence of `cleanupName` -/

theorem replaceWordsGo_eq_nil {flag : Bool} {l : List Char} :
    replaceWordsGo flag l = [] ↔ l = [] := by
  cases l with
  | nil => cases flag <;> simp [replaceWordsGo]
  | cons c rest =>
    cases flag <;> simp only [replaceWordsGo] <;> split_ifs <;> simp

theorem replaceWordsGo_idem (l : List Char) : ∀ flag : Bool,
    replaceWordsGo flag (replaceWordsGo flag l) = replaceWordsGo flag l := by
  induction l with
  | nil => intro flag; cases flag <;> rfl
  | cons c rest ih =>
    intro flag
    cases flag with
    | false =>
      by_cases hw : isWordChar c = true
      · simp [replaceWordsGo, hw, isWordChar_jsToUpper, jsToUpper_jsToUpper, ih]
      · simp [replaceWordsGo, hw, ih]
    | true =>
      by_cases hs : isJsSpace c = true
      · simp [replaceWordsGo, hs, ih]
      · simp [replaceWordsGo, hs, isJsSpace_jsToLower, jsToLower_jsToLower, ih]

theorem dropTrailingSpaces_cons (c : Char) (rest : List Char) :
    dropTrailingSpaces (c :: rest) =
      if dropTrailingSpaces rest = [] ∧ isJsSpace c = true then []
      else c :: dropTrailingSpaces rest := rfl

theorem dropTrailingSpaces_idem (l : List Char) :
    dropTrailingSpaces (dropTrailingSpaces l) = dropTrailingSpaces l := by
  induction l with
  | nil => rfl
  | cons c rest ih =>
    rw [dropTrailingSpaces_cons]
    by_cases h : dropTrailingSpaces rest = [] ∧ isJsSpace c = true
    · rw [if_pos h]
      rfl
    · rw [if_neg h, dropTrailingSpaces_cons, ih, if_neg h]

theorem dropTrailingSpaces_head_cases (l : List Char) :
    dropTrailingSpaces l = [] ∨ (dropTrailingSpaces l).head? = l.head? := by
  cases l with
  | nil => exact Or.inl rfl
  | cons c rest =>
    rw [dropTrailingSpaces_cons]
    split_ifs with h
    · exact Or.inl rfl
    · exact Or.inr rfl

theorem isJsSpace_head_dropWhile (l : List Char) (c : Char) (rest : List Char)
    (h : l.dropWhile isJsSpace = c :: rest) : isJsSpace c = false := by
  induction l with
  | nil => exact absurd h (by simp)
  | cons a t ih =>
    by_cases ha : isJsSpace a = true
    · rw [List.dropWhile_cons_of_pos ha] at h
      exact ih h
    · rw [List.dropWhile_cons_of_neg ha] at h
      injection h with h1 h2
      subst h1
      simpa using ha

theorem head?_map_isJsSpace_replaceWordsGo (flag : Bool) (l : List Char) :
    (replaceWordsGo flag l).head?.map isJsSpace = l.head?.map isJsSpace := by
  cases l with
  | nil => cases flag <;> rfl
  | cons c rest =>
    cases flag with
    | false =>
      by_cases hw : isWordChar c = true <;>
        simp [replaceWordsGo, hw, isJsSpace_jsToUpper]
    | true =>
      by_cases hs : isJsSpace c = true <;>
        simp [replaceWordsGo, hs, isJsSpace_jsToLower]

theorem dropTrailingSpaces_replaceWordsGo (l : List Char) : ∀ flag : Bool,
    dropTrailingSpaces l = l →
    dropTrailingSpaces (replaceWordsGo flag l) = replaceWordsGo flag l := by
  induction l with
  | nil => intro flag _; cases flag <;> rfl
  | cons c rest ih =>
    intro flag h
    rw [dropTrailingSpaces_cons] at h
    by_cases hc : dropTrailingSpaces rest = [] ∧ isJsSpace c = true
    · rw [if_pos hc] at h
      exact absurd h.symm (List.cons_ne_nil c rest)
    · rw [if_neg hc] at h
      have hrest : dropTrailingSpaces rest = rest := by
        injection h
      have hcnot : ¬(rest = [] ∧ isJsSpace c = true) := by
        intro hx
        exact hc ⟨by rw [hx.1]; rfl, hx.2⟩
      cases flag with
      | false =>
        by_cases hw : isWordChar c = true
        · rw [show replaceWordsGo false (c :: rest) =
              jsToUpper c :: replaceWordsGo true rest from by
            simp [replaceWordsGo, hw]]
          rw [dropTrailingSpaces_cons, ih true hrest]
          rw [if_neg (by rw [replaceWordsGo_eq_nil, isJsSpace_jsToUpper]; exact hcnot)]
        · rw [show replaceWordsGo false (c :: rest) =
              c :: replaceWordsGo false rest from by
            simp [replaceWordsGo, hw]]
          rw [dropTrailingSpaces_cons, ih false hrest]
          rw [if_neg (by rw [replaceWordsGo_eq_nil]; exact hcnot)]
      | true =>
        by_cases hs : isJsSpace c = true
        · rw [show replaceWordsGo true (c :: rest) =
              c :: replaceWordsGo false rest from by
            simp [replaceWordsGo, hs]]
          rw [dropTrailingSpaces_cons, ih false hrest]
          rw [if_neg (by rw [replaceWordsGo_eq_nil]; exact hcnot)]
        · rw [show replaceWordsGo true (c :: rest) =
              jsToLower c :: replaceWordsGo true rest from by
            simp [replaceWordsGo, hs]]
          rw [dropTrailingSpaces_cons, ih true hrest]
          rw [if_neg (by rw [replaceWordsGo_eq_nil, isJsSpace_jsToLower]; exact hcnot)]

theorem trim_head_shape (l : List Char) :
    dropTrailingSpaces (l.dropWhile isJsSpace) = [] ∨
      ∃ c r, dropTrailingSpaces (l.dropWhile isJsSpace) = c :: r ∧
        isJsSpace c = false := by
  rcases dropTrailingSpaces_head_cases (l.dropWhile isJsSpace) with h | h
  · exact Or.inl h
  · cases hx : dropTrailingSpaces (l.dropWhile isJsSpace) with
    | nil => exact Or.inl rfl
    | cons c rest =>
      refine Or.inr ⟨c, rest, rfl, ?_⟩
      rw [hx] at h
      cases hy : l.dropWhile isJsSpace with
      | nil =>
        rw [hy] at h
        exact absurd h (by simp)
      | cons a t2 =>
        rw [hy] at h
        have hca : c = a := by simpa using h
        subst hca
        exact isJsSpace_head_dropWhile l c t2 hy

theorem dropWhile_replaceWordsGo (t : List Char)
    (h : t = [] ∨ ∃ c r, t = c :: r ∧ isJsSpace c = false) :
    (replaceWordsGo false t).dropWhile isJsSpace = replaceWordsGo false t := by
  rcases h with rfl | ⟨c, r, rfl, hc⟩
  · rfl
  · by_cases hw : isWordChar c = true
    · rw [show replaceWordsGo false (c :: r) =
          jsToUpper c :: replaceWordsGo true r from by simp [replaceWordsGo, hw]]
      exact List.dropWhile_cons_of_neg (by simp [isJsSpace_jsToUpper, hc])
    · rw [show replaceWordsGo false (c :: r) =
          c :: replaceWordsGo false r from by simp [replaceWordsGo, hw]]
      exact List.dropWhile_cons_of_neg (by simp [hc])

theorem cleanupChars_idem (l : List Char) :
    replaceWordsGo false (trimChars (replaceWordsGo false (trimChars l))) =
      replaceWordsGo false (trimChars l) := by
  unfold trimChars
  rw [dropWhile_replaceWordsGo _ (trim_head_shape l)]
  rw [dropTrailingSpaces_replaceWordsGo _ false (dropTrailingSpaces_idem _)]
  exact replaceWordsGo_idem _ false

/-- C10: `cleanupName` is idempotent — trimming is stable, the regex
token boundaries are unchanged by case mapping, and the per-token
capitalization is itself idempotent. -/
theorem claim10_cleanupName_idempotent (s : String) :
    cleanupName (cleanupName s) = cleanupName s := by
  unfold cleanupName
  exact congrArg String.mk (cleanupChars_idem s.data)

end Courtbot
